import Mathlib

/-
Shallow embedding of the x1e-ec-tool repository (src/tool.py, src/effects.py).

Modelling conventions:
* Python floats are modelled as exact real numbers (coefficients such as
  -0.06309 are the exact decimals written in the source); `math.sqrt` is
  `Real.sqrt`, with the negative-argument `ValueError` branch modelled
  explicitly, exactly as the source catches it.
* Python `round` is round-half-to-even; `pyRoundQ`/`pyRoundR` implement that.
* Hardware reads and raised exceptions are modelled with `Except`; the i2c
  side effects of `tool.py` are recorded as traces of abstract actions where
  a claim is about which actions happen.
-/

namespace X1eEc

/-- Python `round` on an exact rational: round half to even
(banker's rounding), returning an integer. -/
def pyRoundQ (x : ℚ) : ℤ :=
  if Int.fract x = 1/2 then (if 2 ∣ ⌊x⌋ then ⌊x⌋ else ⌊x⌋ + 1) else round x

/-- Python `round` on a real argument (models `round` applied to a float
value): round half to even. -/
noncomputable def pyRoundR (x : ℝ) : ℤ :=
  if Int.fract x = 1/2 then (if 2 ∣ ⌊x⌋ then ⌊x⌋ else ⌊x⌋ + 1) else round x

theorem pyRoundR_intCast (n : ℤ) : pyRoundR (n : ℝ) = n := by
  unfold pyRoundR
  rw [if_neg, round_intCast]
  rw [Int.fract_intCast]
  norm_num

theorem pyRoundQ_intCast (n : ℤ) : pyRoundQ (n : ℚ) = n := by
  unfold pyRoundQ
  rw [if_neg, round_intCast]
  rw [Int.fract_intCast]
  norm_num

/-- If `x ≤ n` then the Python rounding of `x` is at most `n`. -/
theorem pyRoundQ_le {x : ℚ} {n : ℤ} (h : x ≤ (n : ℚ)) : pyRoundQ x ≤ n := by
  unfold pyRoundQ
  split
  · rename_i hf
    have hfl : ⌊x⌋ + 1/2 = x := by
      have := Int.fract_add_floor x
      rw [hf] at this
      linarith
    have hx : (⌊x⌋ : ℚ) < n := by linarith
    have : ⌊x⌋ + 1 ≤ n := by exact_mod_cast hx
    split <;> omega
  · rw [round_eq]
    have h1 : ⌊x + 1/2⌋ ≤ ⌊(n : ℚ) + 1/2⌋ := Int.floor_le_floor (by linarith)
    have h2 : ⌊(n : ℚ) + 1/2⌋ = n := by
      rw [Int.floor_int_add]
      norm_num
    omega

/-- If `(n:ℚ) ≤ x` then `n` is at most the Python rounding of `x`. -/
theorem le_pyRoundQ {x : ℚ} {n : ℤ} (h : (n : ℚ) ≤ x) : n ≤ pyRoundQ x := by
  unfold pyRoundQ
  split
  · rename_i hf
    have hfl : ⌊x⌋ + 1/2 = x := by
      have := Int.fract_add_floor x
      rw [hf] at this
      linarith
    have hx : (n : ℚ) < ⌊x⌋ + 1 := by linarith
    have : n ≤ ⌊x⌋ := by exact_mod_cast Int.lt_add_one_iff.mp (by exact_mod_cast hx)
    split <;> omega
  · rw [round_eq]
    have h1 : ⌊(n : ℚ) + 1/2⌋ ≤ ⌊x + 1/2⌋ := Int.floor_le_floor (by linarith)
    have h2 : ⌊(n : ℚ) + 1/2⌋ = n := by
      rw [Int.floor_int_add]
      norm_num
    omega

/-- A fan RPM model entry of the device table `MODELS`: the tuple
`("ax^2 +bx +c", minDuty, firstSpin, maxRpm)` of `tool.py`, with the
quadratic's coefficients already extracted from the string (the regex
parse in `speed_for_rpm` recovers exactly these three literals). -/
structure RpmModel where
  a : ℝ
  b : ℝ
  c : ℝ
  minDuty : ℤ
  firstSpin : ℤ
  maxRpm : ℤ

/-- Errors `speed_for_rpm` can raise (`RuntimeError` in the source). -/
inductive FanError
  | noModel
  | convexUnimplemented
  deriving DecidableEq, Repr

/-- First table entry for the ASUS Vivobook S 15:
`("-0.06309x^2 +48.64x -174.4", 17, 22, 8340)`. -/
noncomputable def vivobookModel0 : RpmModel :=
  { a := -0.06309, b := 48.64, c := -174.4, minDuty := 17, firstSpin := 22, maxRpm := 8340 }

/-- Second table entry for the ASUS Vivobook S 15:
`("-0.07043x^2 +56.12x -2255", 55, 59, 8400)`. -/
noncomputable def vivobookModel1 : RpmModel :=
  { a := -0.07043, b := 56.12, c := -2255, minDuty := 55, firstSpin := 59, maxRpm := 8400 }

/-- The quadratic the model string denotes: `rpm ≈ a·x² + b·x + c`.
This is the curve `measure_fan_model` fits and `speed_for_rpm` inverts. -/
noncomputable def rpm_for_duty (m : RpmModel) (x : ℝ) : ℝ :=
  m.a * x ^ 2 + m.b * x + m.c

/-- Embedding of `tool.speed_for_rpm` (tool.py lines 300-325).  The Python
function looks the model up as `info.rpm_models[fan_id]`; the result of that
lookup is the `model` argument here (`none` both when `info.rpm_models` is
`None`).  A `None` model raises; `rpm == 0` returns duty 0; a convex model
(`a >= 0`) raises; otherwise the larger quadratic root is taken, a negative
discriminant (the `ValueError` from `math.sqrt`) yields the sentinel value
256, and the result is rounded and clamped into `[0, 255]`. -/
noncomputable def speed_for_rpm (model : Option RpmModel) (rpm : ℝ) : Except FanError ℤ :=
  match model with
  | none => .error .noModel
  | some m =>
    if rpm = 0 then .ok 0
    else if 0 ≤ m.a then .error .convexUnimplemented
    else
      let disc := m.b * m.b - 4 * m.a * (m.c - rpm)
      let val : ℝ := if disc < 0 then 256 else (-m.b + Real.sqrt disc) / (2 * m.a)
      .ok (min (max (pyRoundR val) 0) 255)

/-- Helper: for a concave model and a duty at or below the parabola's vertex,
inverting the model's own rpm value recovers the duty exactly (the
discriminant collapses to `(b + 2·a·d)²`). -/
theorem speed_for_rpm_roundtrip (m : RpmModel) (d : ℤ) (ha : m.a < 0)
    (hd0 : 0 ≤ d) (hd255 : d ≤ 255)
    (hvert : 0 ≤ m.b + 2 * m.a * d)
    (hrpm : rpm_for_duty m d ≠ 0) :
    speed_for_rpm (some m) (rpm_for_duty m d) = .ok d := by
  simp only [speed_for_rpm]
  rw [if_neg hrpm, if_neg (not_le.mpr ha)]
  have hdisc : m.b * m.b - 4 * m.a * (m.c - rpm_for_duty m d) = (m.b + 2 * m.a * d) ^ 2 := by
    unfold rpm_for_duty
    ring
  rw [hdisc, if_neg (not_lt.mpr (sq_nonneg _)), Real.sqrt_sq hvert]
  have hval : (-m.b + (m.b + 2 * m.a * d)) / (2 * m.a) = (d : ℝ) := by
    rw [neg_add_cancel_left, mul_div_cancel_left₀ _ (ne_of_lt (by linarith : (2:ℝ) * m.a < 0))]
  rw [hval, pyRoundR_intCast]
  congr 1
  omega

/-- C7: `speed_for_rpm` with a target rpm of `0` returns duty `0` whenever a
model is present (the `rpm == 0` early return precedes all model math), and
raises `NoModelError` when the fan has no rpm model. -/
theorem speed_for_rpm_zero :
    speed_for_rpm none 0 = .error .noModel ∧
    ∀ m : RpmModel, speed_for_rpm (some m) 0 = .ok 0 := by
  exact ⟨rfl, fun m => by simp [speed_for_rpm]⟩

/-- C6: for any model with `a < 0` and any rpm `≥ 0`, `speed_for_rpm`
succeeds and its result lies in `[0, 255]` (the final
`min(max(round(val), 0), 255)` clamp). -/
theorem speed_for_rpm_mem_range (m : RpmModel) (rpm : ℝ) (ha : m.a < 0) (_hr : 0 ≤ rpm) :
    ∃ d : ℤ, speed_for_rpm (some m) rpm = .ok d ∧ 0 ≤ d ∧ d ≤ 255 := by
  simp only [speed_for_rpm]
  by_cases h0 : rpm = 0
  · rw [if_pos h0]
    exact ⟨0, rfl, le_refl 0, by norm_num⟩
  · rw [if_neg h0, if_neg (not_le.mpr ha)]
    refine ⟨_, rfl, ?_, ?_⟩
    · exact le_min (le_max_right _ 0) (by norm_num)
    · exact min_le_right _ 255

/-- Witness for C6 at the first Vivobook model and rpm 1000. -/
theorem speed_for_rpm_mem_range_witness :
    vivobookModel0.a < 0 ∧ (0:ℝ) ≤ 1000 ∧
    ∃ d : ℤ, speed_for_rpm (some vivobookModel0) 1000 = .ok d ∧ 0 ≤ d ∧ d ≤ 255 :=
  ⟨by norm_num [vivobookModel0], by norm_num,
    speed_for_rpm_mem_range vivobookModel0 1000 (by norm_num [vivobookModel0]) (by norm_num)⟩

/-- Counterexample to C1 as stated: for the first Vivobook model and the
unreachable target rpm 10000 the discriminant is negative, and the function
returns 255 (the internal 256 sentinel clamped by `min(..., 255)`), not 256. -/
theorem speed_for_rpm_sentinel_cex :
    speed_for_rpm (some vivobookModel0) 10000 = .ok 255 ∧
    speed_for_rpm (some vivobookModel0) 10000 ≠ .ok 256 := by
  have h : speed_for_rpm (some vivobookModel0) 10000 = .ok 255 := by
    simp only [speed_for_rpm]
    rw [if_neg (by norm_num : (10000:ℝ) ≠ 0),
      if_neg (by norm_num [vivobookModel0] : ¬ (0:ℝ) ≤ vivobookModel0.a),
      if_pos (by norm_num [vivobookModel0] :
        vivobookModel0.b * vivobookModel0.b -
          4 * vivobookModel0.a * (vivobookModel0.c - 10000) < 0),
      show ((256:ℝ)) = ((256:ℤ):ℝ) by norm_num, pyRoundR_intCast]
    norm_num
  exact ⟨h, by rw [h]; simp⟩

/-- C1 (amended): for a concave model, a nonzero target rpm and a negative
discriminant, `speed_for_rpm` returns 255: the out-of-range sentinel 256 is
assigned internally and then clamped by the final `min(..., 255)`.  In
particular the result is neither a NaN nor negative. -/
theorem speed_for_rpm_neg_disc (m : RpmModel) (rpm : ℝ) (h0 : rpm ≠ 0) (ha : m.a < 0)
    (hd : m.b * m.b - 4 * m.a * (m.c - rpm) < 0) :
    speed_for_rpm (some m) rpm = .ok 255 := by
  simp only [speed_for_rpm]
  rw [if_neg h0, if_neg (not_le.mpr ha), if_pos hd,
    show ((256:ℝ)) = ((256:ℤ):ℝ) by norm_num, pyRoundR_intCast]
  norm_num

/-- Witness for the amended C1 at the first Vivobook model and rpm 9999. -/
theorem speed_for_rpm_neg_disc_witness :
    (9999:ℝ) ≠ 0 ∧ vivobookModel0.a < 0 ∧
    speed_for_rpm (some vivobookModel0) 9999 = .ok 255 :=
  ⟨by norm_num, by norm_num [vivobookModel0],
    speed_for_rpm_neg_disc vivobookModel0 9999 (by norm_num)
      (by norm_num [vivobookModel0]) (by norm_num [vivobookModel0])⟩

/-- C5: for both Vivobook fan models (the only fans of the device table with
rpm models, both with `a < 0`) and every integer duty in the valid domain
(from the recorded `minDuty` up to 254, the range `speed_for_rpm` itself
checks), feeding the model's rpm for that duty back through `speed_for_rpm`
returns exactly the original duty — in particular within the claimed ±1
rounding tolerance. -/
theorem speed_for_rpm_roundtrips_vivobook :
    ∀ d : ℤ,
      (17 ≤ d → d ≤ 254 →
        speed_for_rpm (some vivobookModel0) (rpm_for_duty vivobookModel0 d) = .ok d) ∧
      (55 ≤ d → d ≤ 254 →
        speed_for_rpm (some vivobookModel1) (rpm_for_duty vivobookModel1 d) = .ok d) := by
  intro d
  constructor
  · intro h1 h2
    have hd1 : (17:ℝ) ≤ (d:ℝ) := by exact_mod_cast h1
    have hd2 : (d:ℝ) ≤ 254 := by exact_mod_cast h2
    apply speed_for_rpm_roundtrip
    · norm_num [vivobookModel0]
    · omega
    · omega
    · show (0:ℝ) ≤ vivobookModel0.b + 2 * vivobookModel0.a * d
      norm_num [vivobookModel0]
      nlinarith
    · have hsq : (d:ℝ)^2 ≤ 271 * d - 4318 := by
        nlinarith [mul_nonneg (by linarith : (0:ℝ) ≤ (d:ℝ) - 17) (by linarith : (0:ℝ) ≤ 254 - (d:ℝ))]
      have hpos : 0 < rpm_for_duty vivobookModel0 d := by
        unfold rpm_for_duty vivobookModel0
        show (0:ℝ) < -0.06309 * (d:ℝ)^2 + 48.64 * d + -174.4
        nlinarith
      exact ne_of_gt hpos
  · intro h1 h2
    have hd1 : (55:ℝ) ≤ (d:ℝ) := by exact_mod_cast h1
    have hd2 : (d:ℝ) ≤ 254 := by exact_mod_cast h2
    apply speed_for_rpm_roundtrip
    · norm_num [vivobookModel1]
    · omega
    · omega
    · show (0:ℝ) ≤ vivobookModel1.b + 2 * vivobookModel1.a * d
      norm_num [vivobookModel1]
      nlinarith
    · have hsq : (d:ℝ)^2 ≤ 309 * d - 13970 := by
        nlinarith [mul_nonneg (by linarith : (0:ℝ) ≤ (d:ℝ) - 55) (by linarith : (0:ℝ) ≤ 254 - (d:ℝ))]
      have hpos : 0 < rpm_for_duty vivobookModel1 d := by
        unfold rpm_for_duty vivobookModel1
        show (0:ℝ) < -0.07043 * (d:ℝ)^2 + 56.12 * d + -2255
        nlinarith
      exact ne_of_gt hpos

/-- Witness for C5 at duty 100 for the first Vivobook model. -/
theorem speed_for_rpm_roundtrips_vivobook_witness :
    (17 ≤ (100:ℤ) ∧ (100:ℤ) ≤ 254) ∧
    speed_for_rpm (some vivobookModel0) (rpm_for_duty vivobookModel0 100) = .ok 100 :=
  ⟨⟨by norm_num, by norm_num⟩,
    (speed_for_rpm_roundtrips_vivobook 100).1 (by norm_num) (by norm_num)⟩

/-- Evaluation rule for `pyRoundQ` away from the half-integer boundary:
if `x` lies strictly between `n - 1/2` and `n + 1/2` it rounds to `n`. -/
theorem pyRoundQ_eq_of (x : ℚ) (n : ℤ) (h1 : (n:ℚ) - 1/2 < x) (h2 : x < (n:ℚ) + 1/2) :
    pyRoundQ x = n := by
  unfold pyRoundQ
  rw [if_neg, round_eq]
  · exact Int.floor_eq_iff.mpr ⟨by linarith, by linarith⟩
  · intro hf
    have hx := Int.fract_add_floor x
    rw [hf] at hx
    have ha : (n:ℚ) - 1 < (⌊x⌋ : ℚ) := by linarith
    have hb : (⌊x⌋ : ℚ) < (n:ℚ) := by linarith
    have ha' : n - 1 < ⌊x⌋ := by exact_mod_cast ha
    have hb' : ⌊x⌋ < n := by exact_mod_cast hb
    omega

/-- Evaluation rule for `pyRoundQ` at a half-integer: `m + 1/2` rounds to the
even one of `m` and `m + 1`. -/
theorem pyRoundQ_eq_half (x : ℚ) (m : ℤ) (h : x = (m:ℚ) + 1/2) :
    pyRoundQ x = if 2 ∣ m then m else m + 1 := by
  have hfl : ⌊x⌋ = m := Int.floor_eq_iff.mpr ⟨by rw [h]; linarith, by rw [h]; linarith⟩
  unfold pyRoundQ
  rw [if_pos, hfl]
  rw [Int.fract, hfl, h]
  ring

/-- Clamp of a value to `[0,1]` as the source writes it: `min(max(x, 0), 1)`,
equal to 0 whenever the raw value is nonpositive. -/
theorem clamp01_eq_zero {x : ℚ} (h : x ≤ 0) : min (max x 0) 1 = 0 := by
  rw [max_eq_right h]
  exact min_eq_left (by norm_num)

/-- The `[0,1]` clamp saturates at 1 for raw values at least 1. -/
theorem clamp01_eq_one {x : ℚ} (h : 1 ≤ x) : min (max x 0) 1 = 1 :=
  min_eq_right (h.trans (le_max_left x 0))

/-- The `[0,1]` clamp is the identity on `[0,1]`. -/
theorem clamp01_eq_of {x : ℚ} (h0 : 0 ≤ x) (h1 : x ≤ 1) : min (max x 0) 1 = x := by
  rw [max_eq_left h0]
  exact min_eq_left h1

/-- Threshold `min_temp` of `effects.kb_backlight_fire`. -/
def min_temp : ℚ := 40

/-- Threshold `blue_temp` of `effects.kb_backlight_fire`. -/
def blue_temp : ℚ := 55

/-- Ramp width `temp_range` of `effects.kb_backlight_fire`. -/
def temp_range : ℚ := 30

/-- The RGB triple `kb_backlight_fire` computes for the hottest sampled
temperature (effects.py lines 26-33): a clamped linear ramp for red, the
same fraction squared and halved for green, a second clamped ramp starting
at `blue_temp` for blue; each scaled to a byte with Python `round`. -/
def kb_fire_rgb (temp : ℚ) : List ℤ :=
  let frac := min (max ((temp - min_temp) / temp_range) 0) 1
  let frac2 := min (max ((temp - blue_temp) / temp_range) 0) 1
  let r := frac * 1.0
  let g := frac * frac * 0.5
  let b := frac2
  [pyRoundQ (r * 255), pyRoundQ (g * 255), pyRoundQ (b * 255)]

/-- The value of `cur` before the first iteration of the fire-effect loop. -/
def fire_init : List ℤ := [256, 256, 256]

/-- The sequence of hardware backlight writes the fire-effect loop issues,
as a function of the last-written triple `cur` and the successive hottest
temperature samples: a write happens exactly when the freshly computed
triple differs from `cur` (effects.py lines 33-36). -/
def fire_writes : List ℤ → List ℚ → List (List ℤ)
  | _, [] => []
  | cur, t :: ts =>
    let new := kb_fire_rgb t
    if new ≠ cur then new :: fire_writes new ts else fire_writes cur ts

/-- Unfolded form of `kb_fire_rgb`. -/
theorem kb_fire_rgb_eq (t : ℚ) :
    kb_fire_rgb t =
      [pyRoundQ (min (max ((t - 40) / 30) 0) 1 * 1.0 * 255),
       pyRoundQ (min (max ((t - 40) / 30) 0) 1 * min (max ((t - 40) / 30) 0) 1 * 0.5 * 255),
       pyRoundQ (min (max ((t - 55) / 30) 0) 1 * 255)] := rfl

/-- Concrete evaluation: at 50°C the fire effect computes `[85, 14, 0]`
(`frac = 1/3`, `frac2` clamped to 0). -/
theorem kb_fire_rgb_50 : kb_fire_rgb 50 = [85, 14, 0] := by
  have hf : min (max (((50:ℚ) - 40) / 30) 0) 1 = 1/3 := by
    rw [show ((50:ℚ) - 40) / 30 = 1/3 by norm_num]
    exact clamp01_eq_of (by norm_num) (by norm_num)
  have hf2 : min (max (((50:ℚ) - 55) / 30) 0) 1 = 0 := clamp01_eq_zero (by norm_num)
  have e1 : pyRoundQ ((1/3 : ℚ) * 1.0 * 255) = 85 := by
    rw [show (1/3 : ℚ) * 1.0 * 255 = 85 by norm_num]
    exact pyRoundQ_eq_of 85 85 (by norm_num) (by norm_num)
  have e2 : pyRoundQ ((1/3 : ℚ) * (1/3) * 0.5 * 255) = 14 := by
    rw [show (1/3 : ℚ) * (1/3) * 0.5 * 255 = 255/18 by norm_num]
    exact pyRoundQ_eq_of (255/18) 14 (by norm_num) (by norm_num)
  have e3 : pyRoundQ ((0:ℚ) * 255) = 0 := by
    rw [show (0:ℚ) * 255 = 0 by norm_num]
    exact pyRoundQ_eq_of 0 0 (by norm_num) (by norm_num)
  rw [kb_fire_rgb_eq, hf, hf2, e1, e2, e3]

/-- Concrete evaluation: at 70°C the fire effect computes `[255, 128, 128]`
(`frac = 1`, `frac2 = 1/2`; both 127.5 values round half-even to 128). -/
theorem kb_fire_rgb_70 : kb_fire_rgb 70 = [255, 128, 128] := by
  have hf : min (max (((70:ℚ) - 40) / 30) 0) 1 = 1 :=
    clamp01_eq_one (by norm_num)
  have hf2 : min (max (((70:ℚ) - 55) / 30) 0) 1 = 1/2 := by
    rw [show ((70:ℚ) - 55) / 30 = 1/2 by norm_num]
    exact clamp01_eq_of (by norm_num) (by norm_num)
  have e1 : pyRoundQ ((1 : ℚ) * 1.0 * 255) = 255 := by
    rw [show (1 : ℚ) * 1.0 * 255 = 255 by norm_num]
    exact pyRoundQ_eq_of 255 255 (by norm_num) (by norm_num)
  have e2 : pyRoundQ ((1 : ℚ) * 1 * 0.5 * 255) = 128 := by
    rw [show (1 : ℚ) * 1 * 0.5 * 255 = (127:ℚ) + 1/2 by norm_num,
      pyRoundQ_eq_half _ 127 (by norm_num), if_neg (by norm_num : ¬ (2:ℤ) ∣ 127)]
    norm_num
  have e3 : pyRoundQ ((1/2 : ℚ) * 255) = 128 := by
    rw [show (1/2 : ℚ) * 255 = (127:ℚ) + 1/2 by norm_num,
      pyRoundQ_eq_half _ 127 (by norm_num), if_neg (by norm_num : ¬ (2:ℤ) ∣ 127)]
    norm_num
  rw [kb_fire_rgb_eq, hf, hf2, e1, e2, e3]

/-- Every channel `kb_backlight_fire` computes is at most 255, so the
computed triple can never equal the `[256, 256, 256]` starting value. -/
theorem kb_fire_rgb_ne_init (t : ℚ) : kb_fire_rgb t ≠ fire_init := by
  have hle : min (max ((t - 40) / 30) 0) 1 ≤ 1 := min_le_right _ _
  have hge : (0:ℚ) ≤ min (max ((t - 40) / 30) 0) 1 :=
    le_min (le_max_right _ 0) (by norm_num)
  have hr : pyRoundQ (min (max ((t - 40) / 30) 0) 1 * 1.0 * 255) ≤ 255 := by
    apply pyRoundQ_le
    push_cast
    nlinarith
  intro h
  have h0 := congrArg (fun l => l[0]?) h
  rw [kb_fire_rgb_eq] at h0
  simp [fire_init] at h0
  omega

/-- Once `cur` equals the triple computed for `t`, further samples of the
same temperature produce no writes. -/
theorem fire_writes_const_nil (t : ℚ) (c : List ℤ) (h : kb_fire_rgb t = c) :
    ∀ n : ℕ, fire_writes c (List.replicate n t) = [] := by
  intro n
  induction n with
  | zero => rfl
  | succ n ih =>
    rw [List.replicate_succ]
    simp only [fire_writes]
    rw [if_neg (by simp [h])]
    exact ih

/-- C8: the fire-effect loop issues a hardware write in a cycle exactly when
the computed RGB triple differs from the last written one, and a run of
`n + 1` identical temperature samples starting from the initial sentinel
`cur = [256, 256, 256]` produces exactly one write. -/
theorem fire_writes_iff :
    ∀ (cur : List ℤ) (t : ℚ) (ts : List ℚ) (n : ℕ),
      (kb_fire_rgb t = cur → fire_writes cur (t :: ts) = fire_writes cur ts) ∧
      (kb_fire_rgb t ≠ cur →
        fire_writes cur (t :: ts) = kb_fire_rgb t :: fire_writes (kb_fire_rgb t) ts) ∧
      fire_writes fire_init (List.replicate (n + 1) t) = [kb_fire_rgb t] := by
  intro cur t ts n
  refine ⟨fun h => ?_, fun h => ?_, ?_⟩
  · simp only [fire_writes]
    rw [if_neg (by simp [h])]
  · simp only [fire_writes]
    rw [if_pos (by simp [h])]
  · rw [List.replicate_succ]
    simp only [fire_writes]
    rw [if_pos (by simp [kb_fire_rgb_ne_init t])]
    rw [fire_writes_const_nil t _ rfl]

/-- Witness for C8: one cycle at 50°C from a previously written black triple
issues exactly the write `[85, 14, 0]`. -/
theorem fire_writes_iff_witness :
    kb_fire_rgb 50 ≠ [0, 0, 0] ∧ fire_writes [0, 0, 0] [(50:ℚ)] = [[85, 14, 0]] := by
  have hne : kb_fire_rgb 50 ≠ [0, 0, 0] := by
    rw [kb_fire_rgb_50]
    simp
  have h := (fire_writes_iff [0, 0, 0] 50 [] 0).2.1 hne
  have h2 : fire_writes (kb_fire_rgb 50) ([] : List ℚ) = [] := rfl
  exact ⟨hne, by rw [h, h2, kb_fire_rgb_50]⟩

/-- Counterexample to C2 as stated: at 70°C (= `min_temp + range`) the
computed triple is `[255, 128, 128]` — the green channel reaches only 128,
not 255, because the source halves the squared fraction. -/
theorem kb_fire_rgb_green_cex :
    kb_fire_rgb 70 = [255, 128, 128] ∧ (kb_fire_rgb 70)[1]? ≠ some 255 := by
  refine ⟨kb_fire_rgb_70, ?_⟩
  rw [kb_fire_rgb_70]
  simp

/-- C2 (amended): at most 40°C the triple is `(0,0,0)`; from 70°C on, red
saturates to 255 while green reaches its maximum of 128 (the fraction is
squared and halved before scaling); blue stays 0 up to 55°C and saturates
to 255 from 85°C on. -/
theorem kb_fire_rgb_thresholds :
    ∀ t : ℚ,
      (t ≤ 40 → kb_fire_rgb t = [0, 0, 0]) ∧
      (70 ≤ t → (kb_fire_rgb t)[0]? = some 255 ∧ (kb_fire_rgb t)[1]? = some 128) ∧
      (t ≤ 55 → (kb_fire_rgb t)[2]? = some 0) ∧
      (85 ≤ t → (kb_fire_rgb t)[2]? = some 255) := by
  intro t
  have ez : pyRoundQ (0:ℚ) = 0 := pyRoundQ_eq_of 0 0 (by norm_num) (by norm_num)
  refine ⟨fun h => ?_, fun h => ?_, fun h => ?_, fun h => ?_⟩
  · have hf : min (max ((t - 40) / 30) 0) 1 = 0 :=
      clamp01_eq_zero ((div_nonpos_iff).mpr (Or.inr ⟨by linarith, by norm_num⟩))
    have hf2 : min (max ((t - 55) / 30) 0) 1 = 0 :=
      clamp01_eq_zero ((div_nonpos_iff).mpr (Or.inr ⟨by linarith, by norm_num⟩))
    rw [kb_fire_rgb_eq, hf, hf2,
      show (0:ℚ) * 1.0 * 255 = 0 by norm_num,
      show (0:ℚ) * 0 * 0.5 * 255 = 0 by norm_num,
      show (0:ℚ) * 255 = 0 by norm_num, ez]
  · have hf : min (max ((t - 40) / 30) 0) 1 = 1 :=
      clamp01_eq_one ((le_div_iff₀ (by norm_num : (0:ℚ) < 30)).mpr (by linarith))
    have e1 : pyRoundQ ((1 : ℚ) * 1.0 * 255) = 255 := by
      rw [show (1 : ℚ) * 1.0 * 255 = 255 by norm_num]
      exact pyRoundQ_eq_of 255 255 (by norm_num) (by norm_num)
    have e2 : pyRoundQ ((1 : ℚ) * 1 * 0.5 * 255) = 128 := by
      rw [show (1 : ℚ) * 1 * 0.5 * 255 = (127:ℚ) + 1/2 by norm_num,
        pyRoundQ_eq_half _ 127 (by norm_num), if_neg (by norm_num : ¬ (2:ℤ) ∣ 127)]
      norm_num
    rw [kb_fire_rgb_eq, hf, e1, e2]
    exact ⟨rfl, rfl⟩
  · have hf2 : min (max ((t - 55) / 30) 0) 1 = 0 :=
      clamp01_eq_zero ((div_nonpos_iff).mpr (Or.inr ⟨by linarith, by norm_num⟩))
    rw [kb_fire_rgb_eq, hf2, show (0:ℚ) * 255 = 0 by norm_num, ez]
    rfl
  · have hf2 : min (max ((t - 55) / 30) 0) 1 = 1 :=
      clamp01_eq_one ((le_div_iff₀ (by norm_num : (0:ℚ) < 30)).mpr (by linarith))
    have e3 : pyRoundQ ((1:ℚ) * 255) = 255 := by
      rw [show (1:ℚ) * 255 = 255 by norm_num]
      exact pyRoundQ_eq_of 255 255 (by norm_num) (by norm_num)
    rw [kb_fire_rgb_eq, hf2, e3]
    rfl

/-- Witness for the amended C2 at 30°C, 90°C and 50°C. -/
theorem kb_fire_rgb_thresholds_witness :
    kb_fire_rgb 30 = [0, 0, 0] ∧
    (kb_fire_rgb 90)[0]? = some 255 ∧ (kb_fire_rgb 90)[1]? = some 128 ∧
    (kb_fire_rgb 90)[2]? = some 255 ∧ (kb_fire_rgb 50)[2]? = some 0 :=
  ⟨(kb_fire_rgb_thresholds 30).1 (by norm_num),
    ((kb_fire_rgb_thresholds 90).2.1 (by norm_num)).1,
    ((kb_fire_rgb_thresholds 90).2.1 (by norm_num)).2,
    (kb_fire_rgb_thresholds 90).2.2.2 (by norm_num),
    (kb_fire_rgb_thresholds 50).2.2.1 (by norm_num)⟩

/-- Result of one `os.pread` on a sensor file: the parsed millidegree
integer, or the raised `OSError`. -/
inductive ReadError
  | fail
  deriving DecidableEq, Repr

/-- Embedding of `tool.send_soc_temp` (tool.py lines 212-219): the
temperature is scaled to deci-Celsius with Python `round`, clamped to
`[0, 2000]`, and sent as command byte `0x20`, the fixed sub-header
`0x01 0x02`, then the low byte and the high byte.  For the nonnegative
clamped value, Python's `& 0xff` is `% 256` and `>> 8` is `/ 256`. -/
def send_soc_temp (temp : ℚ) : List ℤ :=
  let t := min (max (pyRoundQ (temp * 10)) 0) 2000
  [0x20, 0x01, 0x02, t % 256, t / 256]

/-- One execution of the inner sensor sweep of `temperature_report_loop`
(tool.py lines 356-358): starting from `temp = 0`, each read either
raises — in which case the exception propagates at once — or contributes
`max(temp, value/1000)`. -/
def cycle_temp (temp : ℚ) : List (Except ReadError ℤ) → Except ReadError ℚ
  | [] => .ok temp
  | r :: rs =>
    match r with
    | .error e => .error e
    | .ok v => cycle_temp (max temp ((v : ℚ) / 1000)) rs

/-- Modelled from the spec: the claim's reading of the sensor sweep, in
which a failed read is "treated as zero" and the sweep always completes. -/
def cycle_temp_claimed (temp : ℚ) : List (Except ReadError ℤ) → ℚ
  | [] => temp
  | r :: rs =>
    cycle_temp_claimed (max temp (match r with | .ok v => (v : ℚ) / 1000 | .error _ => 0)) rs

/-- The `while True` loop of `temperature_report_loop` (tool.py lines
355-363) over a finite prefix of cycles, each cycle being the list of that
cycle's sensor read outcomes: returns the EC temperature packets sent and
`some e` if an unhandled read exception `e` terminated the loop. -/
def temperature_report_loop (cycles : List (List (Except ReadError ℤ))) :
    List (List ℤ) × Option ReadError :=
  match cycles with
  | [] => ([], none)
  | zs :: rest =>
    match cycle_temp 0 zs with
    | .error e => ([], some e)
    | .ok temp =>
      let p := temperature_report_loop rest
      (send_soc_temp temp :: p.1, p.2)

/-- Counterexample to C3 as stated: a cycle whose first read fails.  The
code's sweep raises (`cycle_temp` returns the error, and the loop
terminates having sent nothing), whereas the claim's treat-as-zero sweep
would complete with 45°C. -/
theorem temperature_loop_read_failure_cex :
    cycle_temp 0 [Except.error ReadError.fail, Except.ok 45000] = .error ReadError.fail ∧
    cycle_temp_claimed 0 [Except.error ReadError.fail, Except.ok 45000] = 45 ∧
    temperature_report_loop [[Except.error ReadError.fail, Except.ok 45000]]
      = ([], some ReadError.fail) := by
  refine ⟨rfl, ?_, rfl⟩
  rw [show cycle_temp_claimed 0 [Except.error ReadError.fail, Except.ok 45000]
      = max (max 0 0) (((45000:ℤ):ℚ) / 1000) from rfl,
    max_self, show ((45000:ℤ):ℚ) / 1000 = (45:ℚ) by norm_num,
    max_eq_right (by norm_num : (0:ℚ) ≤ 45)]

/-- C3 (amended): a failed sensor read is not replaced by zero — the
exception propagates: the cycle's sweep aborts at the first failing read
regardless of how many reads succeeded before it, and the report loop
terminates at that cycle having issued no send for it. -/
theorem temperature_loop_read_failure :
    ∀ (temp : ℚ) (oks : List ℤ) (e : ReadError) (rs : List (Except ReadError ℤ))
      (rest : List (List (Except ReadError ℤ))),
      cycle_temp temp (oks.map Except.ok ++ Except.error e :: rs) = .error e ∧
      temperature_report_loop ((oks.map Except.ok ++ Except.error e :: rs) :: rest)
        = ([], some e) := by
  intro temp oks e rs rest
  have hc : ∀ (l : List ℤ) (t0 : ℚ),
      cycle_temp t0 (l.map Except.ok ++ Except.error e :: rs) = .error e := by
    intro l
    induction l with
    | nil => intro t0; rfl
    | cons v vs ih => intro t0; exact ih _
  refine ⟨hc oks temp, ?_⟩
  simp only [temperature_report_loop]
  rw [hc oks 0]

/-- C9: `send_soc_temp` emits exactly five bytes — command `0x20`, the
sub-header `0x01 0x02`, then the clamped deci-Celsius value low byte first
(little-endian) — and at 45.0°C the value is 450 = `0x01C2`, sent as
`C2 01`. -/
theorem send_soc_temp_encoding :
    (∀ temp : ℚ,
      ∃ lo hi : ℤ,
        send_soc_temp temp = [0x20, 0x01, 0x02, lo, hi] ∧
        0 ≤ lo ∧ lo < 256 ∧ 0 ≤ hi ∧ hi < 256 ∧
        lo + 256 * hi = min (max (pyRoundQ (temp * 10)) 0) 2000) ∧
    send_soc_temp 45 = [0x20, 0x01, 0x02, 0xC2, 0x01] := by
  constructor
  · intro temp
    have h0 : 0 ≤ min (max (pyRoundQ (temp * 10)) 0) 2000 :=
      le_min (le_max_right _ 0) (by norm_num)
    have h1 : min (max (pyRoundQ (temp * 10)) 0) 2000 ≤ 2000 := min_le_right _ _
    refine ⟨_, _, rfl, ?_, ?_, ?_, ?_, ?_⟩ <;> omega
  · have h : pyRoundQ ((45:ℚ) * 10) = 450 := by
      rw [show (45:ℚ) * 10 = 450 by norm_num]
      exact pyRoundQ_eq_of 450 450 (by norm_num) (by norm_num)
    simp only [send_soc_temp, h]
    norm_num

/-- `tool.FAN_MODE_AUTO` (tool.py line 192). -/
def FAN_MODE_AUTO : ℕ := 0

/-- `tool.FAN_MODE_MANUAL` (tool.py line 193). -/
def FAN_MODE_MANUAL : ℕ := 2

/-- An EC-visible action issued by the calibration routine. -/
inductive Act
  | setMode (mode : ℕ)
  | setSpeed (fan speed : ℕ)
  | getRpm (fan : ℕ)
  deriving DecidableEq, Repr

/-- State threaded through the calibration routine: the trace of EC actions
issued so far, and how many RPM reads happened (indexing the read
environment). -/
structure EcState where
  trace : List Act
  reads : ℕ
  deriving DecidableEq, Repr

/-- Monad of the calibration routine.  A raised Python exception is
`throw ()`; the action trace lives in the state, which survives an
exception — actions performed before a raise stay performed, exactly as on
the hardware. -/
abbrev EcM := ExceptT Unit (StateM EcState)

/-- `tool.set_fan_mode` as the calibration routine sees it: one EC action. -/
def set_fan_mode (mode : ℕ) : EcM Unit :=
  modify fun s => { s with trace := s.trace ++ [Act.setMode mode] }

/-- `tool.set_fan_speed`: one EC action. -/
def set_fan_speed (fan speed : ℕ) : EcM Unit :=
  modify fun s => { s with trace := s.trace ++ [Act.setSpeed fan speed] }

/-- `tool.get_fan_rpm`: logs the read and returns the next value of the
read environment `env` (hardware readings are arbitrary, so the
environment maps the index of each successive read to its value). -/
def get_fan_rpm (env : ℕ → ℕ) (fan : ℕ) : EcM ℕ := do
  let s ← get
  set ({ trace := s.trace ++ [Act.getRpm fan], reads := s.reads + 1 } : EcState)
  pure (env s.reads)

/-- Python `range(254, 0, -step)` for positive `step`. -/
def downSweep (step : ℕ) : List ℕ :=
  (List.range (253 / step + 1)).map (fun k => 254 - k * step)

/-- Python `range(start, 255, step)` for positive `step`. -/
def upSweep (start step : ℕ) : List ℕ :=
  if start ≤ 254 then (List.range ((254 - start) / step + 1)).map (fun k => start + k * step)
  else []

/-- Lookup in an association list standing for a Python dict keyed by fan
id, with a default. -/
def lookupA {α : Type} (l : List (ℕ × α)) (j : ℕ) (d : α) : α :=
  match l.find? (fun p => p.1 == j) with
  | some p => p.2
  | none => d

/-- Pointwise update of an association list standing for a Python dict. -/
def updateA {α : Type} (l : List (ℕ × α)) (j : ℕ) (v : α) : List (ℕ × α) :=
  l.map (fun p => if p.1 == j then (p.1, v) else p)

/-- Embedding of the body of `tool.measure_fan_model` (tool.py lines
241-295) up to but not including its final `set_fan_mode(FAN_MODE_AUTO)`
line: switch to manual, spin all fans to 255, record `max_speeds`, sweep
the duty downward collecting `(duty, rpm)` pairs, filter out zero-rpm
samples, take `firsts[j] = data[j][:, 0].min()` — numpy's `.min()` on an
empty array raises, which the dict-level `if not len(data)` check on line
270 does not prevent, modelled by `throw ()` — then sweep upward from
`min(firsts.values())` (also raising when the dict is empty) until every
fan has spun up.  Prints, sleeps and the `np.polyfit` (whose result is
only printed) have no EC effect and are not recorded. -/
def measure_sweeps (env : ℕ → ℕ) (fan_ids : List ℕ) (step : ℕ) : EcM Unit := do
  set_fan_mode FAN_MODE_MANUAL
  for j in fan_ids do
    set_fan_speed j 255
  let mut max_speeds : List (ℕ × ℕ) := []
  for j in fan_ids do
    let r ← get_fan_rpm env j
    max_speeds := max_speeds ++ [(j, r)]
  let mut data : List (ℕ × List (ℕ × ℕ)) := fan_ids.map (fun j => (j, []))
  for i in downSweep step do
    for j in fan_ids do
      set_fan_speed j i
    for j in fan_ids do
      let rpm ← get_fan_rpm env j
      data := updateA data j (lookupA data j [] ++ [(i, rpm)])
  let dataF := data.map (fun p => (p.1, p.2.filter (fun q => q.2 ≠ 0)))
  let mut firsts : List (ℕ × ℕ) := []
  for j in fan_ids do
    let m ← match ((lookupA dataF j []).map Prod.fst).min? with
      | none => throw ()
      | some m => pure m
    firsts := firsts ++ [(j, m)]
  let mut first_spins : List (ℕ × ℕ) := fan_ids.map (fun j => (j, 255))
  let start ← match (firsts.map Prod.snd).min? with
    | none => throw ()
    | some m => pure m
  for i in upSweep start step do
    for j in fan_ids do
      set_fan_speed j i
    for j in fan_ids do
      if lookupA first_spins j 255 = 255 then
        let r ← get_fan_rpm env j
        if r ≠ 0 then
          first_spins := updateA first_spins j i
    if ¬ (255 ∈ first_spins.map Prod.snd) then
      break
  pure ()

/-- Embedding of `tool.measure_fan_model` (tool.py lines 241-298): the
sweeps above followed by the routine's last line,
`set_fan_mode(FAN_MODE_AUTO)` — reached only when nothing before it
raised, since the source has no try/finally. -/
def measure_fan_model (env : ℕ → ℕ) (fan_ids : List ℕ) (step : ℕ) : EcM Unit :=
  bind (measure_sweeps env fan_ids step) (fun _ => set_fan_mode FAN_MODE_AUTO)

/-- Running `set_fan_mode` just appends the action to the trace. -/
theorem set_fan_mode_run (m : ℕ) (s : EcState) :
    (set_fan_mode m).run.run s
      = (.ok (), { s with trace := s.trace ++ [Act.setMode m] }) := rfl

/-- Running the full routine: on an erroring sweep the error and its state
pass through; on a successful sweep the final `Auto` switch is appended. -/
theorem measure_fan_model_run (env : ℕ → ℕ) (fan_ids : List ℕ) (step : ℕ) (s : EcState) :
    (measure_fan_model env fan_ids step).run.run s
      = (match ((measure_sweeps env fan_ids step).run.run s).1 with
         | .error e => (.error e, ((measure_sweeps env fan_ids step).run.run s).2)
         | .ok _ => (.ok (), { ((measure_sweeps env fan_ids step).run.run s).2 with
             trace := ((measure_sweeps env fan_ids step).run.run s).2.trace
               ++ [Act.setMode FAN_MODE_AUTO] })) := by
  unfold measure_fan_model
  rw [ExceptT.run_bind, StateT.run_bind]
  cases hq : (measure_sweeps env fan_ids step).run.run s with
  | mk r s₁ => cases r <;> rfl

/-- Counterexample to C4 as stated: one fan whose RPM always reads 0
(`env = fun _ => 0`), sweep step 50.  Every sample is filtered out, so
`data[0][:, 0].min()` raises on an empty array; the run ends in the raised
exception with the fans switched to Manual and `Auto` never restored. -/
theorem measure_fan_model_manual_left_cex :
    (((measure_fan_model (fun _ => 0) [0] 50).run.run { trace := [], reads := 0 }).1
        = .error ()) ∧
    Act.setMode FAN_MODE_MANUAL ∈
      ((measure_fan_model (fun _ => 0) [0] 50).run.run { trace := [], reads := 0 }).2.trace ∧
    Act.setMode FAN_MODE_AUTO ∉
      ((measure_fan_model (fun _ => 0) [0] 50).run.run { trace := [], reads := 0 }).2.trace := by
  refine ⟨rfl, by decide, by decide⟩

/-- C4 (amended): the calibration routine restores `Auto` mode exactly on
the normal completion path — whenever the run completes without raising,
the last EC action of its trace is the switch back to `Auto` (and the
counterexample shows an erroring run keeps Manual, since the source has no
try/finally around the sweeps). -/
theorem measure_fan_model_restores_auto :
    ∀ (env : ℕ → ℕ) (fan_ids : List ℕ) (step : ℕ) (s : EcState) (a : Unit) (s' : EcState),
      (measure_fan_model env fan_ids step).run.run s = (.ok a, s') →
      ∃ pre, s'.trace = pre ++ [Act.setMode FAN_MODE_AUTO] := by
  intro env fan_ids step s a s' h
  rw [measure_fan_model_run] at h
  cases hq : ((measure_sweeps env fan_ids step).run.run s).1 with
  | error e =>
    rw [hq] at h
    have hfst : (Except.error e : Except Unit Unit) = Except.ok a := congrArg Prod.fst h
    exact absurd hfst (by simp)
  | ok u =>
    rw [hq] at h
    refine ⟨((measure_sweeps env fan_ids step).run.run s).2.trace, ?_⟩
    have h2 : ({ ((measure_sweeps env fan_ids step).run.run s).2 with
        trace := ((measure_sweeps env fan_ids step).run.run s).2.trace
          ++ [Act.setMode FAN_MODE_AUTO] } : EcState) = s' := congrArg Prod.snd h
    rw [← h2]

/-- Witness for the amended C4: a fan that always reads 1000 RPM completes
the sweep normally, and the resulting trace ends with the switch back to
`Auto`. -/
theorem measure_fan_model_restores_auto_witness :
    ∃ pre,
      (((measure_fan_model (fun _ => 1000) [0] 50).run.run
          { trace := [], reads := 0 }).2).trace
        = pre ++ [Act.setMode FAN_MODE_AUTO] :=
  measure_fan_model_restores_auto (fun _ => 1000) [0] 50 { trace := [], reads := 0 } ()
    (((measure_fan_model (fun _ => 1000) [0] 50).run.run { trace := [], reads := 0 }).2)
    rfl

/-- One character of the `[0-9a-fA-F]` class of the colour regexes
(tool.py lines 432-434). -/
def hexDigit (c : Char) : Bool :=
  c.isDigit || (('a' ≤ c) && (c ≤ 'f')) || (('A' ≤ c) && (c ≤ 'F'))

/-- Python `args[1].strip("#")`: removes leading and trailing `#`. -/
def strip_hash (s : String) : String :=
  String.mk (((s.toList.dropWhile (fun c => c == '#')).reverse.dropWhile
    (fun c => c == '#')).reverse)

/-- `re.fullmatch` of `s` against `[0-9a-fA-F]{n}`. -/
def hexMatch (s : String) (n : ℕ) : Bool :=
  s.length == n && s.toList.all hexDigit

/-- Embedding of `tool.main` (tool.py lines 392-445) as the return value a
caller sees after `init` succeeded on the recognized Vivobook model
(`info` and `i2c_fd` set, `info.rpm_models` present, so the line-397
`sys.exit(1)` guard does not fire).  Hardware calls do not influence the
return value and are omitted; where the Python function raises instead of
returning — `args[1]` missing (IndexError), `int(args[1])` unparsable
(ValueError, `int` modelled by `String.toInt?`) — the embedding errors.
The `temp-loop` and `measure-rpm` branches return 1 whenever their
routines return at all.  In the `kb` branch all three paths (a 3-digit
colour scaled by 17, a 6-digit colour, and the `#rgb or #rrggbb`
rejection with its explicit `return 1`) produce 1. -/
def main (args : List String) : Except Unit ℤ :=
  match args with
  | [] => .ok 0
  | cmd :: rest =>
    if cmd = "get-speed" then .ok 1
    else if cmd = "set-speed" then
      match rest with
      | [] => .error ()
      | a :: _ =>
        match a.toInt? with
        | none => .error ()
        | some _ => .ok 1
    else if cmd = "mode" then
      match rest with
      | [] => .error ()
      | _ :: _ => .ok 1
    else if cmd = "profile" then
      match rest with
      | [] => .error ()
      | a :: _ =>
        match a.toInt? with
        | none => .error ()
        | some _ => .ok 1
    else if cmd = "temp-loop" then .ok 1
    else if cmd = "suspend" then
      match rest with
      | [] => .error ()
      | a :: _ =>
        match a.toInt? with
        | none => .error ()
        | some _ => .ok 1
    else if cmd = "measure-rpm" then .ok 1
    else if cmd = "kb" then
      match rest with
      | [] => .error ()
      | a :: _ =>
        let colour := strip_hash a
        if hexMatch colour 3 then .ok 1
        else if hexMatch colour 6 then .ok 1
        else .ok 1
    else .ok 1

/-- Whenever `main` is called with at least one argument and returns at
all, it returns 1. -/
theorem main_cons (cmd : String) (rest : List String) (r : ℤ)
    (h : main (cmd :: rest) = .ok r) : r = 1 := by
  unfold main at h
  repeat' split at h
  all_goals
    first
    | exact (Except.ok.inj h).symm
    | exact Except.noConfusion h
    | simp_all

/-- C10: `main` returns 0 exactly on the empty argument list; for every
recognized subcommand (and in fact every nonempty argument list) that
completes without raising, it returns 1 — so the process exit status
`sys.exit(main(sys.argv[1:]))` is nonzero even on success. -/
theorem main_exit_codes :
    main [] = .ok 0 ∧
    (∀ (cmd : String) (rest : List String) (r : ℤ),
      cmd ∈ ["get-speed", "set-speed", "mode", "profile", "temp-loop",
             "suspend", "measure-rpm", "kb"] →
      main (cmd :: rest) = .ok r → r = 1) ∧
    (∀ (args : List String) (r : ℤ), main args = .ok r → (r = 0 ↔ args = [])) := by
  refine ⟨rfl, ?_, ?_⟩
  · intro cmd rest r _ h
    exact main_cons cmd rest r h
  · intro args r h
    cases args with
    | nil =>
      have h0 : r = 0 := (Except.ok.inj h).symm
      simp [h0]
    | cons c cs =>
      have h1 : r = 1 := main_cons c cs r h
      simp [h1]

/-- Witness for C10 at the `get-speed` subcommand. -/
theorem main_exit_codes_witness :
    main ["get-speed"] = .ok 1 ∧ (1:ℤ) = 1 :=
  ⟨rfl, main_exit_codes.2.1 "get-speed" [] 1 (by simp) rfl⟩

end X1eEc
